import Mathlib

/-!
Verification of the Bioregistry resource field-resolution and identifier
normalization model, shallowly embedded from
`src/bioregistry/schema/struct.py`.

Python strings are modelled as lists of characters (`Str`).  String
methods map as follows: `startswith` is `List.isPrefixOf`, `endswith` is
`List.isSuffixOf`, slicing `s[n:]` is `List.drop`, `s[:-n]` is
`List.take (length - n)`, `str.upper`/`str.casefold` are character-wise
ASCII case maps (Python's `casefold` agrees with this on ASCII).
External registry snapshots (`Mapping[str, Any]`) are association lists
whose values are the scalar Python values that actually occur there
(strings and booleans, `PyVal`).
-/

/-- Python strings, modelled as lists of characters. -/
abbrev Str := List Char

/-- Coerce a Lean string literal to the `Str` model. -/
def str (s : String) : Str := s.toList

/-- Scalar Python values stored in local fields and external snapshots:
strings and booleans. -/
inductive PyVal where
  | s (v : Str)
  | b (v : Bool)
deriving DecidableEq, Repr

/-- Python truthiness of an optional scalar value (`None` and empty
strings are falsy, as is `False`). -/
def pyTruthy : Option PyVal → Bool
  | none => false
  | some (.s v) => !v.isEmpty
  | some (.b v) => v

/-- Character-wise ASCII upper-casing, modelling Python `str.upper` on the
ASCII prefixes that occur in registry data. -/
def pyUpper (s : Str) : Str := s.map Char.toUpper

/-- Character-wise ASCII lower-casing, modelling Python `str.casefold`
(identical to `casefold` on ASCII). -/
def casefold (s : Str) : Str := s.map Char.toLower

/-- An external registry snapshot: one third-party registry's record for a
resource, an association list from field names to scalar values
(`Mapping[str, Any]` in the source). -/
abbrev Snapshot := List (Str × PyVal)

/-- Look up a key in a snapshot, keeping the raw value
(`Mapping.get` in the source). -/
def lookupVal (ext : Snapshot) (k : Str) : Option PyVal := List.lookup k ext

/-- Look up a key in a snapshot expecting a string value; a missing key or
a non-string value yields `none` (registry data stores strings under the
keys consulted this way). -/
def lookupS (ext : Snapshot) (k : Str) : Option Str :=
  match List.lookup k ext with
  | some (.s v) => some v
  | _ => none

/-- The `Resource` entity from `bioregistry/schema/struct.py`: locally
curated scalar fields plus one optional snapshot per external registry.
Only the fields consulted by the verified getters are included. -/
structure Resource where
  name : Option Str := none
  description : Option Str := none
  pattern : Option Str := none
  uri_format : Option Str := none
  homepage : Option Str := none
  contact : Option Str := none
  example_ : Option Str := none
  banana : Option Str := none
  namespace_in_lui : Option Bool := none
  mappings : Option (List (Str × Str)) := none
  miriam : Option Snapshot := none
  n2t : Option Snapshot := none
  go : Option Snapshot := none
  prefixcommons : Option Snapshot := none
  wikidata : Option Snapshot := none
  uniprot : Option Snapshot := none
  cellosaurus : Option Snapshot := none
  obofoundry : Option Snapshot := none
  ols : Option Snapshot := none
  ncbi : Option Snapshot := none
  bioportal : Option Snapshot := none
  biolink : Option Snapshot := none
  ontobee : Option Snapshot := none

/-- Model of `self.dict().get(metaprefix)` restricted to the snapshot
fields: the raw optional snapshot stored under a metaprefix key, `none`
for unknown metaprefixes. -/
def dictSnapshot (r : Resource) (mp : Str) : Option Snapshot :=
  if mp = str "miriam" then r.miriam
  else if mp = str "n2t" then r.n2t
  else if mp = str "go" then r.go
  else if mp = str "prefixcommons" then r.prefixcommons
  else if mp = str "wikidata" then r.wikidata
  else if mp = str "uniprot" then r.uniprot
  else if mp = str "cellosaurus" then r.cellosaurus
  else if mp = str "obofoundry" then r.obofoundry
  else if mp = str "ols" then r.ols
  else if mp = str "ncbi" then r.ncbi
  else if mp = str "bioportal" then r.bioportal
  else if mp = str "biolink" then r.biolink
  else if mp = str "ontobee" then r.ontobee
  else none

/-- Model of `self.dict().get(key)` restricted to the locally curated
scalar fields consulted by `get_prefix_key` and its callers. -/
def dictField (r : Resource) (k : Str) : Option PyVal :=
  if k = str "name" then r.name.map .s
  else if k = str "description" then r.description.map .s
  else if k = str "pattern" then r.pattern.map .s
  else if k = str "uri_format" then r.uri_format.map .s
  else if k = str "homepage" then r.homepage.map .s
  else if k = str "contact" then r.contact.map .s
  else if k = str "example" then r.example_.map .s
  else if k = str "banana" then r.banana.map .s
  else if k = str "namespace_in_lui" then r.namespace_in_lui.map .b
  else none

/-- `Resource.get_external`: `self.dict().get(metaprefix) or dict()` —
an absent (or empty, hence falsy) snapshot becomes the empty mapping. -/
def getExternal (r : Resource) (mp : Str) : Snapshot :=
  (dictSnapshot r mp).getD []

/-- The value of the Python expression `self.dict().get(metaprefix) or
dict()` with its possibly-`None` static type made explicit: `none` would
model the `None` that `get_prefix_key`'s `raise TypeError` guards
against. -/
def getExternalPy (r : Resource) (mp : Str) : Option Snapshot :=
  match dictSnapshot r mp with
  | none => some []
  | some s => some (if s.isEmpty then [] else s)

/-- The fallback loop of `Resource.get_prefix_key`, with the
`raise TypeError` branch modelled as an `Except` error. -/
def keyLoopE (r : Resource) (k : Str) : List Str → Except Unit (Option PyVal)
  | [] => .ok none
  | mp :: rest =>
    match getExternalPy r mp with
    | none => .error ()
    | some ext =>
      match lookupVal ext k with
      | some v => .ok (some v)
      | none => keyLoopE r k rest

/-- `Resource.get_prefix_key` with the `raise TypeError` branch kept:
the locally curated field wins, else the external snapshots are consulted
in the given order. -/
def getPrefixKeyE (r : Resource) (k : Str) (mps : List Str) :
    Except Unit (Option PyVal) :=
  match dictField r k with
  | some v => .ok (some v)
  | none => keyLoopE r k mps

/-- The fallback loop of `Resource.get_prefix_key`, exception-free. -/
def keyLoop (r : Resource) (k : Str) : List Str → Option PyVal
  | [] => none
  | mp :: rest =>
    match lookupVal (getExternal r mp) k with
    | some v => some v
    | none => keyLoop r k rest

/-- `Resource.get_prefix_key`: the locally curated field wins, else the
first external snapshot in order that carries the key. -/
def getPrefixKey (r : Resource) (k : Str) (mps : List Str) : Option PyVal :=
  match dictField r k with
  | some v => some v
  | none => keyLoop r k mps

/-- `Resource.get_obo_preferred_prefix`: the `preferredPrefix` annotation
of the OBO Foundry snapshot if present, else the upper-cased OBO Foundry
`prefix`; `none` when the resource is not OBO-Foundry-mapped (a snapshot
whose `prefix` entry is missing, which would raise `KeyError` in Python,
is modelled as `none`). -/
def getOboPreferredPfx (r : Resource) : Option Str :=
  match r.obofoundry with
  | none => none
  | some ext =>
    match lookupS ext (str "preferredPrefix") with
    | some v => some v
    | none => (lookupS ext (str "prefix")).map pyUpper

/-- `Resource.get_banana`: the explicit local `banana` annotation wins;
an explicit `namespace_in_lui = False` suppresses any inferred banana;
otherwise the OBO-Foundry-derived preferred prefix is the inferred
banana; otherwise there is none. -/
def getBanana (r : Resource) : Option Str :=
  match r.banana with
  | some b => some b
  | none =>
    if r.namespace_in_lui = some false then none
    else
      match getOboPreferredPfx r with
      | some p => some p
      | none => none

/-- Modelled from the spec: the collection of metaprefixes in the
metaregistry (`read_metaregistry` lives outside the verified sources);
per the spec's data model these are the external registries a resource
may hold a snapshot for. -/
def readMetaregistry : List Str :=
  [str "miriam", str "n2t", str "obofoundry", str "ols", str "wikidata",
   str "prefixcommons", str "ncbi", str "bioportal", str "go",
   str "uniprot", str "biolink", str "cellosaurus", str "ontobee"]

/-- Insert or overwrite a key in an association list, modelling Python
dict item assignment. -/
def dictInsert (m : List (Str × Str)) (k v : Str) : List (Str × Str) :=
  match m with
  | [] => [(k, v)]
  | (k', v') :: rest =>
    if k' = k then (k, v) :: rest else (k', v') :: dictInsert rest k v

/-- One iteration of the `Resource.get_mappings` loop for a single
metaprefix: an empty snapshot contributes nothing; `wikidata`
contributes its `prefix` entry when present; `obofoundry` contributes its
preferred prefix (or upper-cased `prefix`); every other registry
contributes its `prefix` entry (a nonempty snapshot without a `prefix`
entry, which would raise `KeyError` in Python, is modelled as
contributing nothing). -/
def mappingsStep (r : Resource) (m : List (Str × Str)) (mp : Str) :
    List (Str × Str) :=
  let ext := getExternal r mp
  if ext.isEmpty then m
  else if mp = str "wikidata" then
    match lookupS ext (str "prefix") with
    | some v => dictInsert m mp v
    | none => m
  else if mp = str "obofoundry" then
    match lookupS ext (str "preferredPrefix") with
    | some v => dictInsert m mp v
    | none =>
      match lookupS ext (str "prefix") with
      | some v => dictInsert m mp (pyUpper v)
      | none => m
  else
    match lookupS ext (str "prefix") with
    | some v => dictInsert m mp v
    | none => m

/-- `Resource.get_mappings`: the locally curated `mappings` dictionary,
overridden per metaprefix by the corresponding external snapshot's own
prefix data. -/
def getMappings (r : Resource) : List (Str × Str) :=
  readMetaregistry.foldl (mappingsStep r) (r.mappings.getD [])

/-- `Resource.get_mapped_prefix`: the prefix this resource carries in the
given external registry, if it could be mapped. -/
def getMappedPfx (r : Resource) (mp : Str) : Option Str :=
  List.lookup mp (getMappings r)

/-- `Resource.get_namespace_in_lui`: the explicit local flag, else the
`namespaceEmbeddedInLui` entry of the MIRIAM snapshot (kept as a raw
scalar, as Python would return whatever value is stored there). -/
def getNamespaceInLui (r : Resource) : Option PyVal :=
  match r.namespace_in_lui with
  | some b => some (.b b)
  | none => getPrefixKey r (str "namespaceEmbeddedInLui") [str "miriam"]

/-- Modelled from the spec: `URI_FORMAT_KEY` (defined in
`bioregistry/constants.py`, outside the verified sources) — the snapshot
key under which a registry's URI format string is stored. -/
def uriFormatKey : Str := str "uri_format"

/-- Containment of one string in another (Python `in` on strings): the
needle occurs as a contiguous run of the haystack. -/
def strContains : Str → Str → Bool
  | hay, needle =>
    match hay with
    | [] => needle.isEmpty
    | _ :: rest => needle.isPrefixOf hay || strContains rest needle

/-- `_allowed_uri_format`: a URI format string is usable as a first-party
format only when it does not point at another resolver. -/
def allowedUriFormat (rv : Str) : Bool :=
  !((str "https://identifiers.org").isPrefixOf rv) &&
  !((str "http://identifiers.org").isPrefixOf rv) &&
  !(strContains rv (str "n2t.net")) &&
  !(strContains rv (str "purl.bioontology.org"))

/-- The claim's (and the spec sentence's) reading of the exclusion rule
in `_allowed_uri_format`: only identifiers.org-prefixed and
n2t.net-containing format strings are excluded.  Stated for comparison
with the source's `allowedUriFormat`. -/
def specAllowedUriFormat (rv : Str) : Bool :=
  !((str "https://identifiers.org").isPrefixOf rv) &&
  !((str "http://identifiers.org").isPrefixOf rv) &&
  !(strContains rv (str "n2t.net"))

/-- The fixed source order consulted by `Resource.get_default_format`. -/
def defaultFormatSources : List Str :=
  [str "miriam", str "n2t", str "go", str "prefixcommons",
   str "wikidata", str "uniprot", str "cellosaurus"]

/-- The fallback loop of `Resource.get_default_format`: the first
snapshot `uri_format` entry, in order, that passes the given
admissibility predicate. -/
def firstAllowedIn (r : Resource) (ok : Str → Bool) : List Str → Option Str
  | [] => none
  | mp :: rest =>
    match lookupS (getExternal r mp) uriFormatKey with
    | some rv => if ok rv then some rv else firstAllowedIn r ok rest
    | none => firstAllowedIn r ok rest

/-- `Resource.get_default_format`: the locally curated `uri_format` wins;
else the first external `uri_format` (miriam, n2t, go, prefixcommons,
wikidata, uniprot, cellosaurus) passing `_allowed_uri_format`. -/
def getDefaultFormat (r : Resource) : Option Str :=
  match r.uri_format with
  | some f => some f
  | none => firstAllowedIn r allowedUriFormat defaultFormatSources

/-- The default-format chain as the claim words it: identical except that
the exclusion rule is the claim's two-case `specAllowedUriFormat`. -/
def specDefaultFormat (r : Resource) : Option Str :=
  match r.uri_format with
  | some f => some f
  | none => firstAllowedIn r specAllowedUriFormat defaultFormatSources

/-- Concrete resource shaped like `fbbt`: banana imported through the OBO
Foundry `preferredPrefix` annotation. -/
def rFbbt : Resource :=
  { obofoundry := some [(str "prefix", PyVal.s (str "fbbt")),
      (str "preferredPrefix", PyVal.s (str "FBbt"))] }

/-- Concrete resource shaped like `ncit`: OBO-Foundry-mapped, but with an
explicit `namespace_in_lui = False` override. -/
def rNcit : Resource :=
  { namespace_in_lui := some false,
    obofoundry := some [(str "prefix", PyVal.s (str "ncit"))] }

/-- Strip all trailing question marks, modelling Python
`rv.rstrip("?")`. -/
def rstripQ (s : Str) : Str := (s.reverse.dropWhile (fun c => c = '?')).reverse

/-- Prepend the `^` anchor when not already present (the second step of
`clean_pattern`). -/
def addCaret (r : Str) : Str :=
  if r.head? = some '^' then r else '^' :: r

/-- Append the `$` anchor when not already present (the third step of
`clean_pattern`). -/
def addDollar (r : Str) : Str :=
  if r.getLast? = some '$' then r else r ++ ['$']

/-- `clean_pattern`: strip trailing `?`, then anchor with a leading `^`
and a trailing `$` when not already present. -/
def cleanPattern (rv : Str) : Str :=
  addDollar (addCaret (rstripQ rv))

/-- `Resource.get_pattern`: the locally curated pattern verbatim when
set, else the first pattern in the miriam-then-wikidata fallback chain,
cleaned (a non-string snapshot value under the `pattern` key is modelled
as absent). -/
def getPattern (r : Resource) : Option Str :=
  match r.pattern with
  | some p => some p
  | none =>
    match getPrefixKey r (str "pattern") [str "miriam", str "wikidata"] with
    | some (.s rv) => some (cleanPattern rv)
    | _ => none

/-- The non-banana fallback of `Resource.standardize_identifier`: strip a
redundant case-insensitive `prefix:` when an explicit prefix argument was
supplied, else return the identifier unchanged. -/
def stdFallback (id : Str) (pfx : Option Str) : Str :=
  match pfx with
  | some p =>
    if (casefold p ++ [':']).isPrefixOf (casefold id) then
      id.drop (p.length + 1)
    else id
  | none => id

/-- `Resource.standardize_identifier`: strip a redundant banana (when a
truthy banana exists and the identifier starts with `banana:`), else
strip a redundant case-insensitive `prefix:` when an explicit prefix
argument was supplied, else return the identifier unchanged. -/
def standardizeIdentifier (r : Resource) (id : Str) (pfx : Option Str) : Str :=
  match getBanana r with
  | some b =>
    if !b.isEmpty && (b ++ [':']).isPrefixOf id then id.drop (b.length + 1)
    else stdFallback id pfx
  | none => stdFallback id pfx

/-- The condition under which `standardize_identifier` strips a banana:
a truthy banana exists and the identifier starts with `banana:`. -/
def bananaApplies (r : Resource) (id : Str) : Bool :=
  match getBanana r with
  | some b => !b.isEmpty && (b ++ [':']).isPrefixOf id
  | none => false

/-- The condition under which `standardize_identifier` strips an explicit
prefix argument: the casefolded identifier starts with the casefolded
`prefix:`. -/
def pfxApplies (id : Str) : Option Str → Bool
  | some p => (casefold p ++ [':']).isPrefixOf (casefold id)
  | none => false

/-- `Resource.miriam_standardize_identifier`: when a truthy banana
exists and the identifier does not already start with `banana:`, prepend
it; otherwise return the identifier unchanged. -/
def miriamStandardizeIdentifier (r : Resource) (id : Str) : Str :=
  match getBanana r with
  | some b =>
    if !b.isEmpty then
      if !((b ++ [':']).isPrefixOf id) then (b ++ [':']) ++ id else id
    else id
  | none => id

/-- `Resource.get_identifiers_org_prefix`: the mapped MIRIAM prefix. -/
def getIdentifiersOrgPfx (r : Resource) : Option Str :=
  getMappedPfx r (str "miriam")

/-- `Resource.get_miriam_uri_prefix`: the identifiers.org URI prefix,
upper-casing the MIRIAM prefix when the namespace is embedded in the
LUI. -/
def getMiriamUriPfx (r : Resource) : Option Str :=
  match getIdentifiersOrgPfx r with
  | none => none
  | some p =>
    let p := if pyTruthy (getNamespaceInLui r) then pyUpper p else p
    some (str "https://identifiers.org/" ++ p ++ [':'])

/-- `Resource.get_miriam_uri_format`. -/
def getMiriamUriFormat (r : Resource) : Option Str :=
  (getMiriamUriPfx r).map (fun p => p ++ str "$1")

/-- `Resource.get_nt2_uri_prefix`: the Name-to-Thing URI prefix. -/
def getN2tUriPfx (r : Resource) : Option Str :=
  (getMappedPfx r (str "n2t")).map
    (fun p => str "https://n2t.net/" ++ p ++ [':'])

/-- `Resource.get_n2t_uri_format`. -/
def getN2tUriFormat (r : Resource) : Option Str :=
  (getN2tUriPfx r).map (fun p => p ++ str "$1")

/-- `Resource.get_obofoundry_prefix`: the mapped OBO Foundry prefix. -/
def getObofoundryPfx (r : Resource) : Option Str :=
  getMappedPfx r (str "obofoundry")

/-- `Resource.get_obofoundry_uri_prefix`: the OBO PURL base. -/
def getObofoundryUriPfx (r : Resource) : Option Str :=
  (getObofoundryPfx r).map
    (fun p => str "http://purl.obolibrary.org/obo/" ++ p ++ ['_'])

/-- `Resource.get_obofoundry_uri_format`. -/
def getObofoundryUriFormat (r : Resource) : Option Str :=
  (getObofoundryUriPfx r).map (fun p => p ++ str "$1")

/-- `Resource.get_prefixcommons_uri_format`. -/
def getPrefixcommonsUriFormat (r : Resource) : Option Str :=
  lookupS (getExternal r (str "prefixcommons")) uriFormatKey

/-- `Resource.get_ols_prefix`: the mapped OLS prefix. -/
def getOlsPfx (r : Resource) : Option Str :=
  getMappedPfx r (str "ols")

/-- `Resource.get_ols_uri_prefix`: only resolvable when an OBO Foundry
PURL base exists. -/
def getOlsUriPfx (r : Resource) : Option Str :=
  match getOlsPfx r with
  | none => none
  | some op =>
    match getObofoundryUriPfx r with
    | some ob =>
      if !ob.isEmpty then
        some (str "https://www.ebi.ac.uk/ols/ontologies/" ++ op ++
          str "/terms?iri=" ++ ob)
      else none
    | none => none

/-- `Resource.get_ols_uri_format`. -/
def getOlsUriFormat (r : Resource) : Option Str :=
  (getOlsUriPfx r).map (fun p => p ++ str "$1")

/-- The class-level `URI_FORMATTERS` dispatch table: metaprefix name to
formatter strategy, `none` for unregistered names. -/
def uriFormatters (mp : Str) : Option (Resource → Option Str) :=
  if mp = str "default" then some getDefaultFormat
  else if mp = str "obofoundry" then some getObofoundryUriFormat
  else if mp = str "prefixcommons" then some getPrefixcommonsUriFormat
  else if mp = str "miriam" then some getMiriamUriFormat
  else if mp = str "n2t" then some getN2tUriFormat
  else if mp = str "ols" then some getOlsUriFormat
  else none

/-- The class-level `DEFAULT_URI_FORMATTER_PRIORITY`. -/
def defaultFormatterPriority : List Str :=
  [str "default", str "obofoundry", str "prefixcommons", str "miriam",
   str "n2t", str "ols"]

/-- The strategy loop of `Resource.get_uri_format`: a priority entry with
no registered formatter is skipped (with a logged warning in the
source); the first strategy returning a format string wins. -/
def uriFormatLoop (r : Resource) : List Str → Option Str
  | [] => none
  | mp :: rest =>
    match uriFormatters mp with
    | none => uriFormatLoop r rest
    | some f =>
      match f r with
      | some rv => some rv
      | none => uriFormatLoop r rest

/-- `Resource.get_uri_format`: try the formatter strategies in the given
priority order (default order when no priority is supplied). -/
def getUriFormat (r : Resource) (pr : Option (List Str)) : Option Str :=
  uriFormatLoop r (pr.getD defaultFormatterPriority)

/-- Count the non-overlapping occurrences of the placeholder `$1`,
modelling Python `fmt.count("$1")`. -/
def countDollarOne : Str → Nat
  | '$' :: '1' :: rest => countDollarOne rest + 1
  | _ :: rest => countDollarOne rest
  | [] => 0

/-- `Resource.get_uri_prefix`: the chosen URI format string with its
trailing `$1` stripped; `none` (with a logged debug message in the
source) when there is no format string, when it has zero or more than
one `$1`, or when it does not end with `$1`. -/
def getUriPfx (r : Resource) (pr : Option (List Str)) : Option Str :=
  match getUriFormat r pr with
  | none => none
  | some fmt =>
    if countDollarOne fmt = 0 then none
    else if countDollarOne fmt ≠ 1 then none
    else if (str "$1").isSuffixOf fmt = false then none
    else some (fmt.take (fmt.length - 2))

/-- Abstract syntax of the regular-expression fragment used by registry
identifier patterns, modelling the part of Python `re` they exercise:
character classes (possibly negated), concatenation, alternation and
Kleene star. -/
inductive RE where
  | emp
  | eps
  | pred (cs : List Char) (neg : Bool)
  | cat (a b : RE)
  | alt (a b : RE)
  | star (a : RE)
deriving DecidableEq, Repr

/-- Whether a regular expression accepts the empty string. -/
def nullable : RE → Bool
  | .emp => false
  | .eps => true
  | .pred _ _ => false
  | .cat a b => nullable a && nullable b
  | .alt a b => nullable a || nullable b
  | .star _ => true

/-- Whether a character class matches a character. -/
def predMatch (cs : List Char) (neg : Bool) (c : Char) : Bool :=
  if neg then !(cs.contains c) else cs.contains c

/-- Brzozowski derivative of a regular expression by a character. -/
def reDeriv (r : RE) (c : Char) : RE :=
  match r with
  | .emp => .emp
  | .eps => .emp
  | .pred cs neg => if predMatch cs neg c then .eps else .emp
  | .cat a b =>
    if nullable a then .alt (.cat (reDeriv a c) b) (reDeriv b c)
    else .cat (reDeriv a c) b
  | .alt a b => .alt (reDeriv a c) (reDeriv b c)
  | .star a => .cat (reDeriv a c) (.star a)

/-- Full-string matching via iterated derivatives, modelling
`re.Pattern.fullmatch` returning a match object (`true`) or `None`
(`false`). -/
def reFullmatch (r : RE) (s : Str) : Bool := nullable (s.foldl reDeriv r)

/-- The digit characters (`\d`). -/
def digitsCh : List Char := str "0123456789"

/-- The word characters (`\w`), ASCII fragment. -/
def wordCh : List Char :=
  str "abcdefghijklmnopqrstuvwxyzABCDEFGHIJKLMNOPQRSTUVWXYZ0123456789_"

/-- The whitespace characters (`\s`), ASCII fragment. -/
def spaceCh : List Char := [' ', '\t', '\n', '\r', Char.ofNat 11, Char.ofNat 12]

/-- The character set denoted by an escape inside a character class. -/
def clsEsc (c : Char) : List Char :=
  if c = 'd' then digitsCh
  else if c = 'w' then wordCh
  else if c = 's' then spaceCh
  else if c = 'n' then ['\n']
  else if c = 't' then ['\t']
  else if c = 'r' then ['\r']
  else [c]

/-- The regular expression denoted by a top-level escape. -/
def escRE (c : Char) : RE :=
  if c = 'd' then .pred digitsCh false
  else if c = 'D' then .pred digitsCh true
  else if c = 'w' then .pred wordCh false
  else if c = 'W' then .pred wordCh true
  else if c = 's' then .pred spaceCh false
  else if c = 'S' then .pred spaceCh true
  else if c = 'n' then .pred ['\n'] false
  else if c = 't' then .pred ['\t'] false
  else if c = 'r' then .pred ['\r'] false
  else .pred [c] false

/-- The consecutive character range from `a` to `b`. -/
def charRange (a b : Char) : List Char :=
  (List.range (b.toNat + 1 - a.toNat)).map (fun i => Char.ofNat (a.toNat + i))

/-- Characters that cannot stand bare as a literal atom. -/
def metaCh (c : Char) : Bool :=
  c ∈ ['(', ')', '[', ']', '{', '}', '|', '*', '+', '?', '^', '$', '\\', '.']

/-- Read the items of a character class up to the closing bracket:
escapes, ranges and literal characters. -/
def clsItems : Nat → Str → Option (List Char × Str)
  | 0, _ => none
  | _, ']' :: rest => some ([], rest)
  | fuel + 1, '\\' :: c :: rest =>
    match clsItems fuel rest with
    | none => none
    | some (cs, r) => some (clsEsc c ++ cs, r)
  | fuel + 1, a :: '-' :: b :: rest =>
    if b = ']' then some ([a, '-'], rest)
    else
      match clsItems fuel rest with
      | none => none
      | some (cs, r) => some (charRange a b ++ cs, r)
  | fuel + 1, a :: rest =>
    match clsItems fuel rest with
    | none => none
    | some (cs, r) => some (a :: cs, r)
  | _, [] => none

/-- Read a full character class (after the opening bracket), handling a
leading negation. -/
def parseCls (s : Str) : Option (List Char × Bool × Str) :=
  match s with
  | '^' :: rest => (clsItems (rest.length + 1) rest).map
      (fun x => (x.1, true, x.2))
  | _ => (clsItems (s.length + 1) s).map (fun x => (x.1, false, x.2))

/-- Apply the postfix repetition operators following an atom. -/
def applyPost (r : RE) : Str → (RE × Str)
  | '*' :: rest => applyPost (.star r) rest
  | '+' :: rest => applyPost (.cat r (.star r)) rest
  | '?' :: rest => applyPost (.alt r .eps) rest
  | s => (r, s)

mutual

/-- Read an alternation (`a|b|c`). -/
def parseAlt : Nat → Str → Option (RE × Str)
  | 0, _ => none
  | fuel + 1, s =>
    match parseCat fuel s with
    | none => none
    | some (r, s') =>
      match s' with
      | '|' :: rest =>
        match parseAlt fuel rest with
        | none => none
        | some (r2, s'') => some (.alt r r2, s'')
      | _ => some (r, s')

/-- Read a concatenation of repeated atoms, stopping at `|`, `)` or the
end of the input. -/
def parseCat : Nat → Str → Option (RE × Str)
  | 0, _ => none
  | fuel + 1, s =>
    match s with
    | [] => some (.eps, [])
    | ')' :: _ => some (.eps, s)
    | '|' :: _ => some (.eps, s)
    | _ =>
      match parseAtom fuel s with
      | none => none
      | some (r, s') =>
        let rp := applyPost r s'
        match parseCat fuel rp.2 with
        | none => none
        | some (rs, s'') => some (.cat rp.1 rs, s'')

/-- Read a single atom: a group, a character class, an escape, a dot or
a literal character. -/
def parseAtom : Nat → Str → Option (RE × Str)
  | 0, _ => none
  | fuel + 1, s =>
    match s with
    | '(' :: rest =>
      let rest :=
        match rest with
        | '?' :: ':' :: r2 => r2
        | _ => rest
      match parseAlt fuel rest with
      | none => none
      | some (r, s') =>
        match s' with
        | ')' :: s'' => some (r, s'')
        | _ => none
    | '[' :: rest =>
      match parseCls rest with
      | none => none
      | some (cs, neg, rest') => some (.pred cs neg, rest')
    | '\\' :: c :: rest => some (escRE c, rest)
    | '.' :: rest => some (.pred ['\n'] true, rest)
    | c :: rest => if metaCh c then none else some (.pred [c] false, rest)
    | [] => none

end

/-- Compile a pattern string into the regular-expression fragment,
modelling `re.compile` under full-string matching: a leading `^` and a
trailing `$` are redundant anchors; `none` models a pattern the
fragment cannot compile. -/
def compileRe (p : Str) : Option RE :=
  let p1 := if p.head? = some '^' then p.drop 1 else p
  let p2 := if p1.getLast? = some '$' then p1.dropLast else p1
  match parseAlt (3 * p2.length + 9) p2 with
  | some (r, []) => some r
  | _ => none

/-- `Resource.get_pattern_re`: compile the resolved pattern; `none` when
no pattern is resolvable, an error when the pattern does not compile
(Python lets the `re.error` propagate). -/
def getPatternRe (r : Resource) : Except Unit (Option RE) :=
  match getPattern r with
  | none => .ok none
  | some p =>
    match compileRe p with
    | some re => .ok (some re)
    | none => .error ()

/-- `Resource.is_canonical_identifier`: `None` (unknown) when no pattern
is resolvable, else whether the identifier full-string-matches the
compiled pattern. -/
def isCanonicalIdentifier (r : Resource) (id : Str) :
    Except Unit (Option Bool) :=
  match getPatternRe r with
  | .error e => .error e
  | .ok none => .ok none
  | .ok (some re) => .ok (some (reFullmatch re id))

/-- Concrete resource shaped like `vario`: an explicitly annotated
banana. -/
def rVario : Resource := { banana := some (str "VariO") }

/-- Concrete resource with a locally curated name. -/
def rNamed : Resource :=
  { name := some (str "Gene Ontology"),
    obofoundry := some [(str "name", PyVal.s (str "ignored"))] }

/-- Concrete resource with no data at all. -/
def rEmpty : Resource := {}

/-- Concrete resource with a locally curated anchored digit pattern. -/
def rDigits : Resource := { pattern := some (str "^\\d+$") }

/-- Concrete resource whose locally curated pattern is unanchored. -/
def rUnanchored : Resource := { pattern := some (str "\\d+") }

/-- Concrete resource whose only pattern comes from the MIRIAM snapshot
and needs cleaning. -/
def rMiriamPat : Resource :=
  { miriam := some [(str "pattern", PyVal.s (str "[0-9]+?"))] }

/-- Concrete resource whose MIRIAM format string points at the BioPortal
resolver and whose GO format string is first-party. -/
def rBioportalFmt : Resource :=
  { miriam := some [(uriFormatKey,
      PyVal.s (str "https://purl.bioontology.org/ontology/ABC/$1"))],
    go := some [(uriFormatKey,
      PyVal.s (str "https://example.gov/thing/$1"))] }

/-- Concrete resource whose URI format string does not end with the
placeholder. -/
def rMidPlaceholder : Resource :=
  { uri_format := some (str "https://x.example/$1/view") }

/-- Concrete resource with a well-formed URI format string. -/
def rEndPlaceholder : Resource :=
  { uri_format := some (str "https://x.example/entry/$1") }

/-- The compiled form of the pattern `^\d+$` in the regex fragment. -/
def reDigits : RE :=
  .cat (.cat (.pred digitsCh false) (.star (.pred digitsCh false))) .eps

/-! ## Helper lemmas -/

/-- `get_external` can never produce `None`: the modelled Python `or`
expression always yields the (possibly empty) snapshot mapping. -/
theorem getExternalPy_eq (r : Resource) (mp : Str) :
    getExternalPy r mp = some (getExternal r mp) := by
  simp only [getExternalPy, getExternal]
  cases dictSnapshot r mp with
  | none => rfl
  | some s => cases s <;> rfl

/-- The exception-modelling fallback loop never errors and agrees with
the exception-free loop. -/
theorem keyLoopE_eq (r : Resource) (k : Str) :
    ∀ mps, keyLoopE r k mps = .ok (keyLoop r k mps)
  | [] => rfl
  | mp :: rest => by
    simp only [keyLoopE, keyLoop, getExternalPy_eq]
    cases h : lookupVal (getExternal r mp) k with
    | some v => simp [h]
    | none => simp only [h]; exact keyLoopE_eq r k rest

/-- `get_prefix_key` with the `TypeError` branch kept agrees with the
exception-free version. -/
theorem getPrefixKeyE_eq (r : Resource) (k : Str) (mps : List Str) :
    getPrefixKeyE r k mps = .ok (getPrefixKey r k mps) := by
  simp only [getPrefixKeyE, getPrefixKey]
  cases dictField r k with
  | some v => rfl
  | none => exact keyLoopE_eq r k mps

/-! ## Claim theorems -/

/-- C10: `get_external` always returns a mapping (never a null value),
so the `raise TypeError` guard in `get_prefix_key`'s fallback loop is
unreachable and field resolution never raises for any metaprefix
list. -/
theorem getExternal_total_and_resolution_safe (r : Resource) (k : Str)
    (mps : List Str) :
    (∀ mp, (getExternalPy r mp).isSome = true) ∧
    getPrefixKeyE r k mps = .ok (getPrefixKey r k mps) := by
  constructor
  · intro mp
    rw [getExternalPy_eq]
    rfl
  · exact getPrefixKeyE_eq r k mps

/-- C1: if a resource's locally curated field is non-null,
`get_prefix_key` returns exactly that local value, for every ordered
metaprefix list and regardless of the external snapshots. -/
theorem local_field_override (r : Resource) (k : Str) (mps : List Str)
    (v : PyVal) (h : dictField r k = some v) :
    getPrefixKey r k mps = some v := by
  simp [getPrefixKey, h]

/-- Witness for C1: a concrete resource whose local name overrides the
OBO Foundry snapshot. -/
theorem local_field_override_witness :
    dictField rNamed (str "name") = some (PyVal.s (str "Gene Ontology")) ∧
    getPrefixKey rNamed (str "name") [str "obofoundry"] =
      some (PyVal.s (str "Gene Ontology")) :=
  ⟨by decide,
   local_field_override rNamed (str "name") [str "obofoundry"] _ (by decide)⟩

/-- A string whose last character is not `?` is unchanged by stripping
trailing question marks. -/
theorem rstripQ_eq_self (l : Str) (c : Char) (h : l.getLast? = some c)
    (hc : c ≠ '?') : rstripQ l = l := by
  unfold rstripQ
  cases hr : l.reverse with
  | nil =>
    have hl : l = [] := by simpa using congrArg List.reverse hr
    subst hl
    rfl
  | cons a t =>
    have ha : a = c := by
      have h1 : l.reverse.head? = some c := by rw [List.head?_reverse]; exact h
      rw [hr] at h1
      exact Option.some.inj h1
    subst ha
    rw [List.dropWhile_cons]
    simp only [hc, decide_False, Bool.false_eq_true, if_false]
    rw [← hr, List.reverse_reverse]

/-- `addCaret` always yields a string starting with `^`. -/
theorem addCaret_head (r : Str) : (addCaret r).head? = some '^' := by
  unfold addCaret
  split
  · assumption
  · rfl

/-- `addDollar` always yields a string ending with `$`. -/
theorem addDollar_getLast (r : Str) : (addDollar r).getLast? = some '$' := by
  unfold addDollar
  split
  · assumption
  · exact List.getLast?_concat r

/-- `addDollar` preserves a leading `^`. -/
theorem addDollar_head (r : Str) (h : r.head? = some '^') :
    (addDollar r).head? = some '^' := by
  unfold addDollar
  split
  · exact h
  · rw [List.head?_append, h]
    rfl

/-- `addCaret` is the identity on a string already starting with `^`. -/
theorem addCaret_of_head (r : Str) (h : r.head? = some '^') :
    addCaret r = r := by
  unfold addCaret
  rw [if_pos h]

/-- `addDollar` is the identity on a string already ending with `$`. -/
theorem addDollar_of_getLast (r : Str) (h : r.getLast? = some '$') :
    addDollar r = r := by
  unfold addDollar
  rw [if_pos h]

/-- The cleaned pattern always ends with the `$` anchor. -/
theorem cleanPattern_getLast (s : Str) :
    (cleanPattern s).getLast? = some '$' :=
  addDollar_getLast _

/-- The cleaned pattern always starts with the `^` anchor. -/
theorem cleanPattern_head (s : Str) : (cleanPattern s).head? = some '^' :=
  addDollar_head _ (addCaret_head _)

/-- The cleaned pattern has no trailing question mark left to strip. -/
theorem cleanPattern_rstripQ (s : Str) :
    rstripQ (cleanPattern s) = cleanPattern s :=
  rstripQ_eq_self _ '$' (cleanPattern_getLast s) (by decide)

/-- C9: `clean_pattern` is idempotent — cleaning a cleaned pattern
changes nothing. -/
theorem cleanPattern_idem (s : Str) :
    cleanPattern (cleanPattern s) = cleanPattern s := by
  conv_lhs => rw [cleanPattern]
  rw [cleanPattern_rstripQ, addCaret_of_head _ (cleanPattern_head s),
    addDollar_of_getLast _ (cleanPattern_getLast s)]

/-- C7 counterexample: a locally curated pattern is returned verbatim by
`get_pattern`, so a non-absent result need not be cleaned — here the
local pattern `\d+` comes back without the `^` and `$` anchors. -/
theorem getPattern_cleaned_cex :
    getPattern rUnanchored = some (str "\\d+") ∧
    (str "\\d+").head? ≠ some '^' ∧
    (str "\\d+").getLast? ≠ some '$' := by
  refine ⟨by decide, by decide, by decide⟩

/-- C7 (amended): `get_pattern` returns the locally curated pattern
verbatim when set; otherwise the first pattern of the miriam-then-
wikidata fallback chain, cleaned; otherwise absent — and every result
derived from the fallback chain is cleaned (no trailing `?`, leading
`^`, trailing `$`). -/
theorem getPattern_spec (r : Resource) :
    (∀ p, r.pattern = some p → getPattern r = some p) ∧
    (∀ v, r.pattern = none →
      getPrefixKey r (str "pattern") [str "miriam", str "wikidata"] =
        some (PyVal.s v) →
      getPattern r = some (cleanPattern v)) ∧
    (r.pattern = none →
      getPrefixKey r (str "pattern") [str "miriam", str "wikidata"] = none →
      getPattern r = none) ∧
    (∀ v, r.pattern = none → getPattern r = some v →
      v.head? = some '^' ∧ v.getLast? = some '$' ∧ rstripQ v = v) := by
  refine ⟨?_, ?_, ?_, ?_⟩
  · intro p hp
    simp [getPattern, hp]
  · intro v hp hk
    simp [getPattern, hp, hk]
  · intro hp hk
    simp [getPattern, hp, hk]
  · intro v hp hv
    simp only [getPattern, hp] at hv
    cases hk : getPrefixKey r (str "pattern") [str "miriam", str "wikidata"] with
    | none =>
      rw [hk] at hv
      cases hv
    | some pv =>
      cases pv with
      | b bb =>
        rw [hk] at hv
        cases hv
      | s rv =>
        rw [hk] at hv
        have hcv : cleanPattern rv = v := Option.some.inj hv
        refine ⟨?_, ?_, ?_⟩
        · rw [← hcv]; exact cleanPattern_head rv
        · rw [← hcv]; exact cleanPattern_getLast rv
        · rw [← hcv]; exact cleanPattern_rstripQ rv

/-- Witness for the amended C7: the local pattern of `rDigits` is
returned verbatim, and the MIRIAM-derived pattern of `rMiriamPat` comes
back cleaned. -/
theorem getPattern_spec_witness :
    getPattern rDigits = some (str "^\\d+$") ∧
    getPattern rMiriamPat = some (str "^[0-9]+$") :=
  ⟨(getPattern_spec rDigits).1 _ (by decide),
   ((getPattern_spec rMiriamPat).2.1 (str "[0-9]+?") (by decide)
     (by decide)).trans (by decide)⟩

/-- C3: `get_banana` resolution order — the explicit local banana
annotation wins; an explicit `namespace_in_lui = false` yields no banana
even for OBO-Foundry-mapped resources; otherwise an OBO Foundry snapshot
yields the OBO-Foundry-derived preferred prefix; otherwise there is no
banana. -/
theorem getBanana_spec (r : Resource) :
    (∀ b, r.banana = some b → getBanana r = some b) ∧
    (r.banana = none → r.namespace_in_lui = some false →
      getBanana r = none) ∧
    (r.banana = none → r.namespace_in_lui ≠ some false →
      getBanana r = getOboPreferredPfx r) ∧
    (r.banana = none → r.namespace_in_lui ≠ some false →
      r.obofoundry = none → getBanana r = none) := by
  refine ⟨?_, ?_, ?_, ?_⟩
  · intro b hb
    simp [getBanana, hb]
  · intro hb hn
    simp [getBanana, hb, hn]
  · intro hb hn
    simp only [getBanana, hb]
    rw [if_neg hn]
    cases getOboPreferredPfx r <;> rfl
  · intro hb hn ho
    simp only [getBanana, hb]
    rw [if_neg hn]
    simp [getOboPreferredPfx, ho]

/-- Witness for C3: the three reachable branches at concrete resources —
an explicit banana (`rVario`), an explicit `namespace_in_lui = False`
override (`rNcit`), and an OBO-Foundry-inferred banana (`rFbbt`). -/
theorem getBanana_spec_witness :
    getBanana rVario = some (str "VariO") ∧
    getBanana rNcit = none ∧
    getBanana rFbbt = some (str "FBbt") :=
  ⟨(getBanana_spec rVario).1 _ (by decide),
   (getBanana_spec rNcit).2.1 (by decide) (by decide),
   ((getBanana_spec rFbbt).2.2.1 (by decide) (by decide)).trans (by decide)⟩

/-- When the banana case does not apply, `standardize_identifier` falls
through to the explicit-prefix handling. -/
theorem std_eq_fallback (r : Resource) (id : Str) (pfx : Option Str)
    (h : bananaApplies r id = false) :
    standardizeIdentifier r id pfx = stdFallback id pfx := by
  unfold standardizeIdentifier
  cases hb : getBanana r with
  | none => rfl
  | some b =>
    have h' : (!b.isEmpty && (b ++ [':']).isPrefixOf id) = false := by
      unfold bananaApplies at h
      rw [hb] at h
      exact h
    simp [h']

/-- C2: `standardize_identifier` strips `banana:` (banana length plus one
for the colon) when a truthy banana exists and the identifier starts with
it; otherwise strips a case-insensitive `prefix:` when an explicit prefix
argument applies; otherwise returns the identifier unchanged — and in
every case the result is a single suffix of the input (at most one strip,
never recursive). -/
theorem standardizeIdentifier_spec (r : Resource) (id : Str)
    (pfx : Option Str) :
    (∀ b, getBanana r = some b →
      (!b.isEmpty && (b ++ [':']).isPrefixOf id) = true →
      standardizeIdentifier r id pfx = id.drop (b.length + 1)) ∧
    (bananaApplies r id = false → ∀ p, pfx = some p →
      (casefold p ++ [':']).isPrefixOf (casefold id) = true →
      standardizeIdentifier r id pfx = id.drop (p.length + 1)) ∧
    (bananaApplies r id = false → pfxApplies id pfx = false →
      standardizeIdentifier r id pfx = id) ∧
    (∃ n, standardizeIdentifier r id pfx = id.drop n) := by
  refine ⟨?_, ?_, ?_, ?_⟩
  · intro b hb hcond
    simp [standardizeIdentifier, hb, hcond]
  · intro hban p hp hcase
    rw [std_eq_fallback r id pfx hban, hp]
    simp [stdFallback, hcase]
  · intro hban hpfx
    rw [std_eq_fallback r id pfx hban]
    cases hp : pfx with
    | none => rfl
    | some p =>
      rw [hp] at hpfx
      simp only [pfxApplies] at hpfx
      simp [stdFallback, hpfx]
  · cases hban : bananaApplies r id with
    | true =>
      unfold bananaApplies at hban
      cases hb : getBanana r with
      | none => rw [hb] at hban; cases hban
      | some b =>
        rw [hb] at hban
        have hban' : (!b.isEmpty && (b ++ [':']).isPrefixOf id) = true := hban
        exact ⟨b.length + 1, by simp [standardizeIdentifier, hb, hban']⟩
    | false =>
      rw [std_eq_fallback r id pfx hban]
      cases hp : pfx with
      | none => exact ⟨0, rfl⟩
      | some p =>
        cases hc : (casefold p ++ [':']).isPrefixOf (casefold id) with
        | true => exact ⟨p.length + 1, by simp [stdFallback, hc]⟩
        | false => exact ⟨0, by simp [stdFallback, hc]⟩

/-- Witness for C2: all three branches at concrete inputs — banana strip
on `rVario`, explicit-prefix strip on `rEmpty`, and the unchanged
case. -/
theorem standardizeIdentifier_spec_witness :
    standardizeIdentifier rVario (str "VariO:0376") none = str "0376" ∧
    standardizeIdentifier rEmpty (str "GO:123") (some (str "go")) =
      str "123" ∧
    standardizeIdentifier rVario (str "0376") none = str "0376" :=
  ⟨((standardizeIdentifier_spec rVario (str "VariO:0376") none).1
      (str "VariO") (by decide) (by decide)).trans (by decide),
   ((standardizeIdentifier_spec rEmpty (str "GO:123") (some (str "go"))).2.1
      (by decide) (str "go") rfl (by decide)).trans (by decide),
   (standardizeIdentifier_spec rVario (str "0376") none).2.2.1
      (by decide) (by decide)⟩

/-- C4: banana round-trip law — for a resource with a banana and an
identifier not already starting with `banana:`, stripping after
prepending restores the original identifier. -/
theorem banana_roundtrip (r : Resource) (b id : Str)
    (hb : getBanana r = some b)
    (hid : (b ++ [':']).isPrefixOf id = false) :
    standardizeIdentifier r (miriamStandardizeIdentifier r id) none = id := by
  cases hbe : b.isEmpty with
  | true =>
    have hb0 : b = [] := List.isEmpty_iff.mp hbe
    subst hb0
    simp [miriamStandardizeIdentifier, standardizeIdentifier, stdFallback, hb]
  | false =>
    have hm : miriamStandardizeIdentifier r id = (b ++ [':']) ++ id := by
      simp [miriamStandardizeIdentifier, hb, hbe, hid]
    have hpre : (b ++ [':']).isPrefixOf ((b ++ [':']) ++ id) = true := by
      rw [List.isPrefixOf_iff_prefix]
      exact List.prefix_append _ _
    rw [hm]
    simp only [standardizeIdentifier, hb, hbe, hpre, Bool.not_false,
      Bool.true_and, if_true]
    have hlen : b.length + 1 = (b ++ [':']).length := by simp
    rw [hlen, List.drop_left]

/-- Witness for C4 at the `vario` example from the spec: prepending and
then stripping the `VariO` banana restores `0376`. -/
theorem banana_roundtrip_witness :
    standardizeIdentifier rVario
      (miriamStandardizeIdentifier rVario (str "0376")) none = str "0376" :=
  banana_roundtrip rVario (str "VariO") (str "0376") (by decide) (by decide)

/-- The default-format fallback loop returns the first admissible
candidate among the snapshot format strings, in source order. -/
theorem firstAllowedIn_eq (r : Resource) (ok : Str → Bool) :
    ∀ mps, firstAllowedIn r ok mps =
      (mps.filterMap
        (fun mp => lookupS (getExternal r mp) uriFormatKey)).find? ok
  | [] => rfl
  | mp :: rest => by
    simp only [firstAllowedIn, List.filterMap_cons]
    cases h : lookupS (getExternal r mp) uriFormatKey with
    | none => exact firstAllowedIn_eq r ok rest
    | some rv =>
      cases hok : ok rv with
      | true => simp [List.find?_cons_of_pos, hok]
      | false =>
        rw [List.find?_cons_of_neg _ (by simp [hok])]
        dsimp only
        rw [if_neg (by simp [hok])]
        exact firstAllowedIn_eq r ok rest

/-- C5 counterexample: the claim's exclusion rule (identifiers.org and
n2t.net only) admits a `purl.bioontology.org` format that the source's
`_allowed_uri_format` rejects, so the two chains disagree on
`rBioportalFmt`. -/
theorem getDefaultFormat_claim_cex :
    specDefaultFormat rBioportalFmt =
      some (str "https://purl.bioontology.org/ontology/ABC/$1") ∧
    getDefaultFormat rBioportalFmt =
      some (str "https://example.gov/thing/$1") ∧
    getDefaultFormat rBioportalFmt ≠ specDefaultFormat rBioportalFmt := by
  refine ⟨by decide, by decide, by decide⟩

/-- C5 (amended): `get_default_format` returns the local `uri_format`
when set, else the first snapshot format string in the order miriam,
n2t, go, prefixcommons, wikidata, uniprot, cellosaurus passing
`_allowed_uri_format` — which excludes identifiers.org-prefixed,
n2t.net-containing and also `purl.bioontology.org`-containing formats —
else absent. -/
theorem getDefaultFormat_spec (r : Resource) :
    (∀ f, r.uri_format = some f → getDefaultFormat r = some f) ∧
    (r.uri_format = none →
      getDefaultFormat r =
        (defaultFormatSources.filterMap
          (fun mp => lookupS (getExternal r mp) uriFormatKey)).find?
          allowedUriFormat) := by
  constructor
  · intro f hf
    simp [getDefaultFormat, hf]
  · intro hf
    simp only [getDefaultFormat, hf]
    exact firstAllowedIn_eq r _ _

/-- Witness for the amended C5: the local format of `rEndPlaceholder`
wins, and the fallback chain of `rBioportalFmt` picks the first
admissible snapshot format. -/
theorem getDefaultFormat_spec_witness :
    getDefaultFormat rEndPlaceholder =
      some (str "https://x.example/entry/$1") ∧
    getDefaultFormat rBioportalFmt =
      (defaultFormatSources.filterMap
        (fun mp => lookupS (getExternal rBioportalFmt mp) uriFormatKey)).find?
        allowedUriFormat :=
  ⟨(getDefaultFormat_spec rEndPlaceholder).1 _ (by decide),
   (getDefaultFormat_spec rBioportalFmt).2 (by decide)⟩

/-- C6: `get_uri_prefix` never raises on a malformed format string — when
the resolved URI format has zero `$1` occurrences, more than one, or does
not end in `$1`, it returns absent; when it has exactly one occurrence
and ends with it, it returns the format with the trailing placeholder
stripped. -/
theorem getUriPfx_spec (r : Resource) (pr : Option (List Str)) (fmt : Str)
    (h : getUriFormat r pr = some fmt) :
    ((countDollarOne fmt = 0 ∨ 1 < countDollarOne fmt ∨
        (str "$1").isSuffixOf fmt = false) → getUriPfx r pr = none) ∧
    (countDollarOne fmt = 1 → (str "$1").isSuffixOf fmt = true →
      getUriPfx r pr = some (fmt.take (fmt.length - 2))) := by
  constructor
  · intro hbad
    simp only [getUriPfx, h]
    split_ifs with a b c
    · rfl
    · rfl
    · rfl
    · rcases hbad with h0 | h1 | h2
      · exact absurd h0 a
      · exact absurd (by omega : countDollarOne fmt ≠ 1) b
      · rw [h2] at c
        exact absurd rfl c
  · intro h1 h2
    simp only [getUriPfx, h]
    split_ifs with a b c
    · omega
    · exact absurd h1 b
    · rw [h2] at c
      cases c
    · rfl

/-- Witness for C6: a format ending mid-string yields no URI prefix, a
well-formed format yields its prefix. -/
theorem getUriPfx_spec_witness :
    getUriPfx rMidPlaceholder none = none ∧
    getUriPfx rEndPlaceholder none = some (str "https://x.example/entry/") :=
  ⟨(getUriPfx_spec rMidPlaceholder none (str "https://x.example/$1/view")
      (by decide)).1 (Or.inr (Or.inr (by decide))),
   ((getUriPfx_spec rEndPlaceholder none (str "https://x.example/entry/$1")
      (by decide)).2 (by decide) (by decide)).trans (by decide)⟩

/-- C8: `is_canonical_identifier` is three-valued — with no resolvable
pattern the result is the unknown sentinel (`None`, never `False`); with
a resolvable (and compilable) pattern the result is exactly whether the
identifier full-string-matches it. -/
theorem isCanonicalIdentifier_spec (r : Resource) (id : Str) :
    (getPattern r = none → isCanonicalIdentifier r id = .ok none) ∧
    (∀ p re, getPattern r = some p → compileRe p = some re →
      isCanonicalIdentifier r id = .ok (some (reFullmatch re id)) ∧
      (isCanonicalIdentifier r id = .ok (some true) ↔
        reFullmatch re id = true)) := by
  constructor
  · intro h
    simp [isCanonicalIdentifier, getPatternRe, h]
  · intro p re hp hre
    have hmain : isCanonicalIdentifier r id = .ok (some (reFullmatch re id)) := by
      simp [isCanonicalIdentifier, getPatternRe, hp, hre]
    refine ⟨hmain, ?_⟩
    rw [hmain]
    cases hm : reFullmatch re id <;> simp

/-- Witness for C8: the unknown sentinel on a patternless resource, and
both match outcomes on a digit-patterned resource. -/
theorem isCanonicalIdentifier_spec_witness :
    isCanonicalIdentifier rEmpty (str "123") = .ok none ∧
    isCanonicalIdentifier rDigits (str "123") = .ok (some true) ∧
    isCanonicalIdentifier rDigits (str "12a") = .ok (some false) :=
  ⟨(isCanonicalIdentifier_spec rEmpty (str "123")).1 (by decide),
   (((isCanonicalIdentifier_spec rDigits (str "123")).2 (str "^\\d+$")
      reDigits (by decide) (by decide)).1).trans
     (congrArg (fun bb => Except.ok (some bb)) (by decide)),
   (((isCanonicalIdentifier_spec rDigits (str "12a")).2 (str "^\\d+$")
      reDigits (by decide) (by decide)).1).trans
     (congrArg (fun bb => Except.ok (some bb)) (by decide))⟩
